import Mathlib

/-!
Formal model of the gseapy Enrichr pipeline (src/gseapy/enrichr.py).

The pure decision logic of the module is embedded as executable Lean
definitions.  External collaborators (the HTTP service, the filesystem,
the statistical routines calc_pvalues and multiple_testing_correction,
the Biomart client) are passed in as explicit oracle parameters, so every
definition stays computable and every branch of the original control flow
is represented.  Python integers are Int, Python lists are List, Python
sets are Finset, Python dicts used as term-to-genes mappings are
association lists in file order.
-/

namespace Enrichr

/-- Python str.lower, character by character (gene identifiers and
organism names are ASCII, which Char.toLower covers). -/
def toLowerStr (s : String) : String := (s.toList.map Char.toLower).asString

/-- Python str.endswith. -/
def endsWithStr (s suf : String) : Bool := suf.toList.isSuffixOf s.toList

/-- Python str.split with a one-character separator: the empty string
yields one empty field, every separator occurrence opens a new field. -/
def splitOnChar (sep : Char) : List Char → List (List Char)
  | [] => [[]]
  | c :: cs =>
      let r := splitOnChar sep cs
      if c = sep then [] :: r
      else
        match r with
        | [] => [[c]]
        | h :: t => (c :: h) :: t

/-- Characters dropped by the Python str.strip method at both ends of a
string (whitespace; the embedding covers the ASCII whitespace range that
Char.isWhitespace models). -/
def pyStripList (cs : List Char) : List Char :=
  ((cs.dropWhile Char.isWhitespace).reverse.dropWhile Char.isWhitespace).reverse

/-- Python str.strip as a String to String function. -/
def pyStrip (s : String) : String := (pyStripList s.toList).asString

/-- Tail of a Python int literal after its first digit: digits, with single
underscores allowed only between digits (CPython grammar for int with
base 10). -/
def digitsRest : List Char → Bool
  | [] => true
  | ['_'] => false
  | '_' :: c :: cs => c.isDigit && digitsRest cs
  | c :: cs => c.isDigit && digitsRest cs

/-- A Python base-10 int literal body: nonempty, first char a digit, then
digits with optional single interior underscores. -/
def pyIntLit : List Char → Bool
  | [] => false
  | c :: cs => c.isDigit && digitsRest cs

/-- Numeric value of a digit-and-underscore character run. -/
def digitsVal (acc : Nat) : List Char → Nat
  | [] => acc
  | '_' :: cs => digitsVal acc cs
  | c :: cs => digitsVal (acc * 10 + (c.toNat - '0'.toNat)) cs

/-- The Python builtin int applied to a string: strip whitespace, allow one
leading sign, then a base-10 literal; none models the ValueError raised on
any other shape.  This is exactly the success condition of the
_is_entrez_id try/except in enrichr.py. -/
def pyParseInt (s : String) : Option Int :=
  match pyStripList s.toList with
  | '+' :: rest => if pyIntLit rest then some (Int.ofNat (digitsVal 0 rest)) else none
  | '-' :: rest => if pyIntLit rest then some (-(Int.ofNat (digitsVal 0 rest))) else none
  | other => if pyIntLit other then some (Int.ofNat (digitsVal 0 other)) else none

/-- Enrichr._is_entrez_id: true exactly when int(idx) succeeds. -/
def pyIntParses (s : String) : Bool := (pyParseInt s).isSome

/-- Python str.isdigit restricted to ASCII digits: nonempty and every
character a digit.  Used by the background dispatch in Enrichr.enrich. -/
def pyIsdigit (s : String) : Bool :=
  match s.toList with
  | [] => false
  | cs => cs.all Char.isDigit

/-- The internal query collection self._gls: a set of ints when every gene
parses as an integer, otherwise the original list of strings. -/
inductive Gls where
  | numeric (s : Finset Int)
  | symbolic (gs : List String)
deriving DecidableEq

/-- Output of Enrichr.parse_genelists: the numeric-identifier flag
self._isezid, the internal query collection self._gls, and the returned
newline-joined payload submitted to the remote service. -/
structure ParsedGeneList where
  isezid : Bool
  gls : Gls
  payload : String
deriving DecidableEq

/-- Enrichr.parse_genelists on the list-of-identifiers input variant (the
DataFrame, Series and file variants first flatten to such a list; the
flag, the set conversion and the join below are applied to that flattened
list unchanged).  set(map(int, genes)) is modelled by filterMap pyParseInt
followed by toFinset; when the all-parse flag holds, filterMap drops
nothing. -/
def parse_genelists (genes : List String) : ParsedGeneList :=
  let isez := genes.all pyIntParses
  { isezid := isez
    gls := if isez then Gls.numeric ((genes.filterMap pyParseInt).toFinset)
           else Gls.symbolic genes
    payload := String.intercalate "\n" genes }

/-- A local term-to-genes mapping (a parsed gmt file or a user dict),
kept in file order. -/
abbrev Gmt := List (String × List String)

/-- Python file readlines followed by per-line strip: the newline
terminators that readlines keeps are whitespace and are removed by the
strip each line receives, so lines are split on the newline directly. -/
def pyReadlines (s : String) : List String :=
  if s = "" then []
  else
    let parts := (splitOnChar '\n' s.toList).map List.asString
    if endsWithStr s "\n" then parts.dropLast else parts

/-- One record of a gmt file as read by Enrichr.parse_genesets:
line.strip().split tab, term from field 0, genes from fields 2 onward
(field 1, the description, is skipped by the slice). -/
def parseGmtLine (line : String) : String × List String :=
  let flds := (splitOnChar '\t' (pyStrip line).toList).map List.asString
  (flds.headD "", flds.drop 2)

/-- The gmt dict comprehension in Enrichr.parse_genesets, one entry per
line of the file in file order. -/
def parseGmt (content : String) : Gmt :=
  (pyReadlines content).map parseGmtLine

/-- One element of the normalized gene_sets list: a user dict or a string
token (library name or path). -/
inductive GeneSetToken where
  | dict (m : Gmt)
  | str (s : String)
deriving DecidableEq

/-- A resolved gene-set source: a local mapping or a validated remote
library name. -/
inductive GeneSetSource where
  | localSrc (m : Gmt)
  | remoteSrc (name : String)
deriving DecidableEq

/-- Enrichr.parse_genesets over the normalized token list.  catalog is the
library-name list fetched by get_libraries; fsys is the filesystem, giving
the content of a path that exists and none for a path that does not.
Dict tokens are kept directly; a string token in the catalog stays remote;
a string token whose lowercase form ends in .gmt and which exists as a
file is parsed; every other token is dropped (filterMap returns none). -/
def parse_genesets (catalog : List String) (fsys : String → Option String)
    (tokens : List GeneSetToken) : List GeneSetSource :=
  tokens.filterMap fun t =>
    match t with
    | GeneSetToken.dict m => some (GeneSetSource.localSrc m)
    | GeneSetToken.str g =>
        if g ∈ catalog then some (GeneSetSource.remoteSrc g)
        else if endsWithStr (toLowerStr g) ".gmt" then
          match fsys g with
          | some content => some (GeneSetSource.localSrc (parseGmt content))
          | none => none
        else none

/-- Aliases mapping to the default (empty) endpoint before Enrichr in the
URL. -/
def defaultAliases : List String :=
  ["", "hs", "mm", "human", "mouse", "homo sapiens", "mus musculus",
   "h. sapiens", "m. musculus"]

/-- Aliases mapping to the Fly endpoint. -/
def flyAliases : List String := ["fly", "d. melanogaster", "drosophila melanogaster"]

/-- Aliases mapping to the Yeast endpoint. -/
def yeastAliases : List String := ["yeast", "s. cerevisiae", "saccharomyces cerevisiae"]

/-- Aliases mapping to the Worm endpoint. -/
def wormAliases : List String := ["worm", "c. elegans", "caenorhabditis elegans", "nematode"]

/-- Aliases mapping to the Fish endpoint. -/
def fishAliases : List String := ["fish", "d. rerio", "danio rerio", "zebrafish"]

/-- The organism dict of Enrichr.get_organism, in source order. -/
def organismAliases : List (String × List String) :=
  [("default", defaultAliases), ("Fly", flyAliases), ("Yeast", yeastAliases),
   ("Worm", wormAliases), ("Fish", fishAliases)]

/-- Enrichr.get_organism: scan the alias table with the lowercased
organism (the loop keeps the last matching key; the alias lists are
disjoint), map the default key to the empty endpoint, and return none for
the raised exception when nothing matches. -/
def get_organism (organism : String) : Option String :=
  match organismAliases.foldl
      (fun acc kv => if toLowerStr organism ∈ kv.2 then some kv.1 else acc) none with
  | none => none
  | some k => some (if k = "default" then "" else k)

/-- The value held by self.background when Enrichr.enrich dispatches on
it, split along the branches the code tests: a Python int (scalar), a
Python str (scalar), a Python bytes (scalar, with its ASCII contents as a
String: bytes has an isdigit method and the builtin int accepts digit
bytes), any other scalar without those shapes (a float, a numpy scalar,
...), a non-scalar iterable of identifiers, and a non-scalar non-iterable
object such as None. -/
inductive BgValue where
  | intV (n : Int)
  | strV (s : String)
  | bytesV (s : String)
  | scalarOther
  | iterV (gs : List String)
  | nonIterV
deriving DecidableEq

/-- The background handed to the statistical routine: the count self._bg
when numeric, the gene set when resolved, or unset when self._bg was never
assigned. -/
inductive BgParam where
  | cnt (n : Int)
  | genes (gs : Finset String)
  | unset
deriving DecidableEq

/-- What the background-dispatch prefix of Enrichr.enrich does: assign a
count, assign a gene set, raise an exception that reaches the caller
(fatal), or log an error and fall through with self._bg unset. -/
inductive BgOutcome where
  | okCount (n : Int)
  | okGenes (gs : Finset String)
  | fatal
  | loggedContinue
deriving DecidableEq

/-- The background dispatch at the top of Enrichr.enrich.  getBg is
Enrichr.get_background as an oracle (it reads a background file, a cached
or bundled table, or queries Biomart, and selects the identifier column
matching the query type; all of that is outside the pure logic).  A
scalar int, or a scalar digit string, becomes a count; any other scalar
string goes through get_background.  A bytes scalar also answers isdigit:
digit bytes pass the first test and the builtin int converts them to the
count (int accepts str, bytes and bytearray), while non-digit bytes fail
the isinstance str test and reach the explicit raise.  Any other scalar
raises on the missing isdigit attribute - an exception reaches the caller
either way.  A non-scalar iterable becomes the set of its elements; a
non-scalar non-iterable hits the except TypeError branch, which only logs
the error and continues with self._bg unset. -/
def resolveBackground (getBg : String → Finset String) : BgValue → BgOutcome
  | BgValue.intV n => BgOutcome.okCount n
  | BgValue.strV s =>
      if pyIsdigit s then BgOutcome.okCount (Int.ofNat (digitsVal 0 s.toList))
      else BgOutcome.okGenes (getBg s)
  | BgValue.bytesV s =>
      if pyIsdigit s then BgOutcome.okCount (Int.ofNat (digitsVal 0 s.toList))
      else BgOutcome.fatal
  | BgValue.scalarOther => BgOutcome.fatal
  | BgValue.iterV gs => BgOutcome.okGenes gs.toFinset
  | BgValue.nonIterV => BgOutcome.loggedContinue

/-- The background argument calc_pvalues receives after the dispatch, or
none when the dispatch raised. -/
def bgParamOf : BgOutcome → Option BgParam
  | BgOutcome.okCount n => some (BgParam.cnt n)
  | BgOutcome.okGenes gs => some (BgParam.genes gs)
  | BgOutcome.fatal => none
  | BgOutcome.loggedContinue => some BgParam.unset

/-- The nonempty payload of list(calc_pvalues(...)): the five parallel
columns terms, pvals, olsz, gsetsz, genes that the code unpacks. -/
structure HgResult where
  terms : List String
  pvals : List Rat
  olsz : List Nat
  gsetsz : List Nat
  genes : List (List String)
deriving DecidableEq

/-- One row of the local-mode result frame built in Enrichr.enrich, with
the columns Term, Overlap, P-value, Adjusted P-value, Genes. -/
structure EnrichRow where
  term : String
  overlap : String
  pval : Rat
  adjp : Rat
  genes : String
deriving DecidableEq

/-- A result table: the rows of one DataFrame in order. -/
abbrev ResTable := List EnrichRow

/-- The OrderedDict-to-DataFrame construction in Enrichr.enrich: Overlap
rendered as hits slash size, adjusted p-values from the correction
routine, Genes semicolon-joined.  correct is
multiple_testing_correction as an oracle (first component of its return
value). -/
def buildRows (correct : List Rat → List Rat) (hg : HgResult) : List EnrichRow :=
  let fdrs := correct hg.pvals
  (List.range hg.terms.length).map fun i =>
    { term := hg.terms.getD i ""
      overlap := toString (hg.olsz.getD i 0) ++ "/" ++ toString (hg.gsetsz.getD i 0)
      pval := hg.pvals.getD i 0
      adjp := fdrs.getD i 0
      genes := String.intercalate ";" (hg.genes.getD i []) }

/-- What one call of Enrichr.enrich does: raise an exception that reaches
the caller, return None (the empty-hgtest branch falls off the end of the
function), or return a result frame. -/
inductive EnrichResult where
  | fatal
  | noRows
  | table (rows : List EnrichRow)
deriving DecidableEq

/-- Enrichr.enrich over one local mapping.  calcP is calc_pvalues as an
oracle: none models the empty list it yields when no term passes its
filter, some the five-column payload otherwise. -/
def enrich (getBg : String → Finset String)
    (calcP : Gls → Gmt → BgParam → Option HgResult)
    (correct : List Rat → List Rat)
    (bg : BgValue) (gls : Gls) (gmt : Gmt) : EnrichResult :=
  match bgParamOf (resolveBackground getBg bg) with
  | none => EnrichResult.fatal
  | some p =>
      match calcP gls gmt p with
      | none => EnrichResult.noRows
      | some hg => EnrichResult.table (buildRows correct hg)

/-- Modelled from the spec: the bounded-retry HTTP client built by
retry(num=5) in gseapy.utils, which is not part of the sources here; the
spec fixes a hard cap of 5 attempts with increasing backoff for the
export fetch in Enrichr.get_results.  attempt k gives the outcome of the
k-th attempt (1-indexed); the client returns the first success together
with the number of attempts made, and gives up fatally after the 5th
failure. -/
def retryFetch (attempt : Nat → Option ResTable) : Option ResTable × Nat :=
  match attempt 1 with
  | some r => (some r, 1)
  | none =>
    match attempt 2 with
    | some r => (some r, 2)
    | none =>
      match attempt 3 with
      | some r => (some r, 3)
      | none =>
        match attempt 4 with
        | some r => (some r, 4)
        | none =>
          match attempt 5 with
          | some r => (some r, 5)
          | none => (none, 5)

/-- The external world of one Enrichr.run call: the library catalog
served by datasetStatistics, the filesystem, the submit outcome of the
addList endpoint per library, the per-attempt outcome of the export
endpoint per library, and the three statistical oracles of the local
path. -/
structure RunEnv where
  catalog : List String
  fsys : String → Option String
  submitOk : String → Bool
  fetchAttempt : String → Nat → Option ResTable
  getBg : String → Finset String
  calcP : Gls → Gmt → BgParam → Option HgResult
  correct : List Rat → List Rat

/-- How one Enrichr.run call ends: the loop over sources completes, the
empty-sources branch calls sys.exit with a code, get_organism raises, or
an exception escapes the per-source processing. -/
inductive Outcome where
  | done
  | exited (code : Nat)
  | raisedOrg
  | raisedSrc
deriving DecidableEq

/-- Observable result of one Enrichr.run call: how it ended, the
accumulated self.results rows tagged with their Gene_set name, how many
network requests were issued (one for get_libraries, one for each submit,
one per fetch attempt), whether the temporary-directory cleanup on the
last line of run was reached (it is guarded by outdir being None), and
what was written to stderr and stdout. -/
structure RunResult where
  outcome : Outcome
  results : List (String × ResTable)
  networkCalls : Nat
  tmpCleaned : Bool
  stderrOut : String
  stdoutOut : String
deriving DecidableEq

/-- The source loop of Enrichr.run.  A dict source runs enrich: a raised
exception escapes the loop at once; a None result only logs and
continues; a frame is tagged (with the CUSTOM name derived from the dict
identity, abstracted to the literal CUSTOM here) and appended.  A string
source submits and fetches: a failed submit raises at once; an exhausted
fetch raises at once; a fetched frame is tagged with the library name and
appended.  There is no try/except around the body, so the first escape
ends the whole traversal. -/
def runLoop (env : RunEnv) (gls : Gls) (bg : BgValue) :
    List GeneSetSource → List (String × ResTable) → Nat →
    Outcome × List (String × ResTable) × Nat
  | [], acc, n => (Outcome.done, acc, n)
  | GeneSetSource.localSrc m :: rest, acc, n =>
      match enrich env.getBg env.calcP env.correct bg gls m with
      | EnrichResult.fatal => (Outcome.raisedSrc, acc, n)
      | EnrichResult.noRows => runLoop env gls bg rest acc n
      | EnrichResult.table t => runLoop env gls bg rest (acc ++ [("CUSTOM", t)]) n
  | GeneSetSource.remoteSrc g :: rest, acc, n =>
      if env.submitOk g then
        match retryFetch (env.fetchAttempt g) with
        | (some t, c) => runLoop env gls bg rest (acc ++ [(g, t)]) (n + 1 + c)
        | (none, c) => (Outcome.raisedSrc, acc, n + 1 + c)
      else (Outcome.raisedSrc, acc, n + 1)

/-- Enrichr.run: resolve the organism (raising before any network
traffic when no alias matches), normalize the gene list, resolve the
gene-set sources (one get_libraries request), exit with status 1 and the
two usage messages when nothing resolved, otherwise traverse the sources
and, only when the traversal completes and outdir is None, clean up the
temporary directory. -/
def run (env : RunEnv) (organism : String) (genes : List String)
    (tokens : List GeneSetToken) (bg : BgValue) (outdirNone : Bool) : RunResult :=
  match get_organism organism with
  | none =>
      { outcome := Outcome.raisedOrg, results := [], networkCalls := 0,
        tmpCleaned := false, stderrOut := "", stdoutOut := "" }
  | some _ =>
      let parsed := parse_genelists genes
      let gss := parse_genesets env.catalog env.fsys tokens
      if gss = [] then
        { outcome := Outcome.exited 1, results := [], networkCalls := 1,
          tmpCleaned := false,
          stderrOut := "Not validated Enrichr library name provided\n",
          stdoutOut := "Hint: use get_library_name() to view full list of supported names" }
      else
        match runLoop env parsed.gls bg gss [] 1 with
        | (oc, acc, n) =>
            { outcome := oc, results := acc, networkCalls := n,
              tmpCleaned := match oc with | Outcome.done => outdirNone | _ => false,
              stderrOut := "", stdoutOut := "" }

end Enrichr

/-! Fixtures shared by the concrete statements below. -/

/-- A minimal environment: empty catalog, empty filesystem, failing
submits, failing fetches, empty background table, a statistical routine
that returns no terms. -/
def envEmpty : Enrichr.RunEnv :=
  { catalog := [], fsys := fun _ => none, submitOk := fun _ => false,
    fetchAttempt := fun _ _ => none, getBg := fun _ => ∅,
    calcP := fun _ _ _ => none, correct := id }

/-- A one-term payload of the statistical routine. -/
def hgEx : Enrichr.HgResult :=
  { terms := ["T"], pvals := [1/2], olsz := [1], gsetsz := [1], genes := [["g"]] }

/-- A one-term local gene set. -/
def gmtEx : Enrichr.Gmt := [("T", ["g"])]

/-- A fixed sample result row. -/
def rowEx : Enrichr.EnrichRow :=
  { term := "T", overlap := "1/1", pval := 1/2, adjp := 1/2, genes := "g" }

/-- Filesystem fixture: one existing file named X.GMT holding one
record. -/
def fsUpper : String → Option String :=
  fun p => if p = "X.GMT" then some "T\tdesc\tg1\tg2" else none

/-- Filesystem fixture: one existing file named y.gmt holding one
record. -/
def fsLower : String → Option String :=
  fun p => if p = "y.gmt" then some "A\td\tx" else none

/-- Environment for the abort counterexample: the catalog contains the
library A, the submit for it fails, and the local statistical routine
always returns the one-term payload. -/
def envC1 : Enrichr.RunEnv :=
  { catalog := ["A"], fsys := fun _ => none, submitOk := fun _ => false,
    fetchAttempt := fun _ _ => none, getBg := fun _ => ∅,
    calcP := fun _ _ _ => some hgEx, correct := id }

/-! Claims. -/

/-- C7: the numeric-identifier flag computed by parse_genelists is true
exactly when every element of the gene list parses as a Python int, and
any input containing one non-parsing token makes it false. -/
theorem numericFlagAllParse (genes : List String) :
    ((Enrichr.parse_genelists genes).isezid = true ↔
      ∀ g ∈ genes, Enrichr.pyIntParses g = true) ∧
    (∀ g, g ∈ genes → Enrichr.pyIntParses g = false →
      (Enrichr.parse_genelists genes).isezid = false) := by
  have hdef : (Enrichr.parse_genelists genes).isezid = genes.all Enrichr.pyIntParses := rfl
  constructor
  · rw [hdef]
    exact List.all_eq_true
  · intro g hg hf
    rw [hdef, ← Bool.not_eq_true, List.all_eq_true]
    intro hall
    have h1 := hall g hg
    rw [hf] at h1
    exact Bool.false_ne_true h1

/-- C7 witness: a list with one non-numeric token has a false flag. -/
theorem numericFlagAllParse_w :
    (Enrichr.parse_genelists ["12", "abc"]).isezid = false :=
  (numericFlagAllParse ["12", "abc"]).2 "abc" (by decide) (by decide)

/-- C10: the payload submitted to the remote service is always the
newline join of the original elements in order with duplicates kept,
while for all-numeric inputs the internal query collection is the set of
the parsed integers, so duplicates and order are lost there (witnessed by
the two concrete lists with equal sets and different payloads). -/
theorem glsNormalization (genes : List String) :
    (Enrichr.parse_genelists genes).payload = String.intercalate "\n" genes ∧
    (genes.all Enrichr.pyIntParses = true →
      (Enrichr.parse_genelists genes).gls =
        Enrichr.Gls.numeric ((genes.filterMap Enrichr.pyParseInt).toFinset)) ∧
    (Enrichr.parse_genelists ["7", "3", "7"]).gls =
      (Enrichr.parse_genelists ["3", "7"]).gls ∧
    (Enrichr.parse_genelists ["7", "3", "7"]).payload ≠
      (Enrichr.parse_genelists ["3", "7"]).payload := by
  refine ⟨rfl, ?_, by decide, by decide⟩
  intro h
  have hdef : (Enrichr.parse_genelists genes).gls =
      if genes.all Enrichr.pyIntParses then
        Enrichr.Gls.numeric ((genes.filterMap Enrichr.pyParseInt).toFinset)
      else Enrichr.Gls.symbolic genes := rfl
  rw [hdef, if_pos h]

/-- C10 witness: an all-numeric list with a duplicate. -/
theorem glsNormalization_w :
    (Enrichr.parse_genelists ["2", "1", "2"]).gls =
      Enrichr.Gls.numeric (((["2", "1", "2"] : List String).filterMap
        Enrichr.pyParseInt).toFinset) :=
  (glsNormalization ["2", "1", "2"]).2.1 (by decide)

/-- C8 counterexample: the suffix test in parse_genesets lowercases the
token first, so the existing file X.GMT, whose name does not end in the
lowercase string .gmt, is parsed into a local source instead of being
dropped as the claim states. -/
theorem gmtSuffixCase_cex :
    Enrichr.endsWithStr "X.GMT" ".gmt" = false ∧
    Enrichr.parse_genesets [] fsUpper [Enrichr.GeneSetToken.str "X.GMT"] =
      [Enrichr.GeneSetSource.localSrc [("T", ["g1", "g2"])]] :=
  ⟨by decide, by rfl⟩

/-- C8 amended: for a string token outside the catalog, if its lowercased
form ends in .gmt and the file exists, it is parsed into a local mapping
with the term from field 0 and the genes from fields 2 onward of each
tab-split record; otherwise the token is silently dropped. -/
theorem gmtTokenResolution (catalog : List String) (fsys : String → Option String)
    (g : String) (pre post : List Enrichr.GeneSetToken)
    (hnot : g ∉ catalog) :
    Enrichr.parse_genesets catalog fsys (pre ++ Enrichr.GeneSetToken.str g :: post) =
      Enrichr.parse_genesets catalog fsys pre ++
      (if Enrichr.endsWithStr (Enrichr.toLowerStr g) ".gmt" = true then
        (match fsys g with
         | some content => [Enrichr.GeneSetSource.localSrc (Enrichr.parseGmt content)]
         | none => [])
       else []) ++
      Enrichr.parse_genesets catalog fsys post := by
  by_cases hg : Enrichr.endsWithStr (Enrichr.toLowerStr g) ".gmt" = true
  · cases hfs : fsys g with
    | some content =>
        simp [Enrichr.parse_genesets, List.filterMap_append, List.filterMap_cons,
              hnot, hg, hfs]
    | none =>
        simp [Enrichr.parse_genesets, List.filterMap_append, List.filterMap_cons,
              hnot, hg, hfs]
  · simp [Enrichr.parse_genesets, List.filterMap_append, List.filterMap_cons, hnot, hg]

/-- C8 amended witness: a catalog name stays remote, an existing
lowercase gmt path is parsed, an unknown name is dropped. -/
theorem gmtTokenResolution_w :
    Enrichr.parse_genesets ["L"] fsLower
        ([Enrichr.GeneSetToken.str "L"] ++
          Enrichr.GeneSetToken.str "y.gmt" :: [Enrichr.GeneSetToken.str "nope"]) =
      [Enrichr.GeneSetSource.remoteSrc "L", Enrichr.GeneSetSource.localSrc [("A", ["x"])]] := by
  rw [gmtTokenResolution ["L"] fsLower "y.gmt" [Enrichr.GeneSetToken.str "L"]
      [Enrichr.GeneSetToken.str "nope"] (by decide)]
  rfl

/-- C6: organism alias resolution lowercases its input; human, hs and
H. sapiens in any case resolve to the empty endpoint, zebrafish resolves
to Fish, and an organism matching no alias makes run raise before any
network request is issued. -/
theorem organismAliasResolution (s : String) (env : Enrichr.RunEnv)
    (genes : List String) (tokens : List Enrichr.GeneSetToken)
    (bg : Enrichr.BgValue) (od : Bool)
    (h : ∀ p ∈ Enrichr.organismAliases, Enrichr.toLowerStr s ∉ p.2) :
    Enrichr.get_organism "human" = some "" ∧
    Enrichr.get_organism "HUMAN" = some "" ∧
    Enrichr.get_organism "hs" = some "" ∧
    Enrichr.get_organism "Hs" = some "" ∧
    Enrichr.get_organism "H. sapiens" = some "" ∧
    Enrichr.get_organism "h. SAPIENS" = some "" ∧
    Enrichr.get_organism "zebrafish" = some "Fish" ∧
    Enrichr.get_organism "ZebraFish" = some "Fish" ∧
    Enrichr.get_organism s = none ∧
    (Enrichr.run env s genes tokens bg od).outcome = Enrichr.Outcome.raisedOrg ∧
    (Enrichr.run env s genes tokens bg od).networkCalls = 0 := by
  have h1 := h ("default", Enrichr.defaultAliases) (by simp [Enrichr.organismAliases])
  have h2 := h ("Fly", Enrichr.flyAliases) (by simp [Enrichr.organismAliases])
  have h3 := h ("Yeast", Enrichr.yeastAliases) (by simp [Enrichr.organismAliases])
  have h4 := h ("Worm", Enrichr.wormAliases) (by simp [Enrichr.organismAliases])
  have h5 := h ("Fish", Enrichr.fishAliases) (by simp [Enrichr.organismAliases])
  have hnone : Enrichr.get_organism s = none := by
    simp only [Enrichr.get_organism, Enrichr.organismAliases, List.foldl_cons,
      List.foldl_nil]
    rw [if_neg h5, if_neg h4, if_neg h3, if_neg h2, if_neg h1]
  refine ⟨by decide, by decide, by decide, by decide, by decide, by decide,
    by decide, by decide, hnone, ?_, ?_⟩
  · simp [Enrichr.run, hnone]
  · simp [Enrichr.run, hnone]

/-- C6 witness: klingon matches no alias, resolution raises, and zero
network requests have been made. -/
theorem organismAliasResolution_w :
    Enrichr.get_organism "klingon" = none ∧
    (Enrichr.run envEmpty "klingon" ["TP53"] [] (Enrichr.BgValue.intV 1)
      false).networkCalls = 0 := by
  have h := organismAliasResolution "klingon" envEmpty ["TP53"] []
    (Enrichr.BgValue.intV 1) false (by decide)
  exact ⟨h.2.2.2.2.2.2.2.2.1, h.2.2.2.2.2.2.2.2.2.2⟩

/-- C5: when the resolved source list is empty, run writes the usage
message to stderr, the hint naming the library-listing helper to stdout,
and exits with status 1 rather than raising. -/
theorem emptySourcesExitNonzero (env : Enrichr.RunEnv) (org : String)
    (genes : List String) (tokens : List Enrichr.GeneSetToken)
    (bg : Enrichr.BgValue) (od : Bool) (p : String)
    (horg : Enrichr.get_organism org = some p)
    (hempty : Enrichr.parse_genesets env.catalog env.fsys tokens = []) :
    (Enrichr.run env org genes tokens bg od).outcome = Enrichr.Outcome.exited 1 ∧
    (Enrichr.run env org genes tokens bg od).stderrOut =
      "Not validated Enrichr library name provided\n" ∧
    (Enrichr.run env org genes tokens bg od).stdoutOut =
      "Hint: use get_library_name() to view full list of supported names" := by
  refine ⟨?_, ?_, ?_⟩ <;> simp [Enrichr.run, horg, hempty]

/-- C5 witness: a token that is neither in the catalog nor a gmt file
resolves to nothing and run exits with status 1. -/
theorem emptySourcesExitNonzero_w :
    (Enrichr.run envEmpty "human" ["TP53"] [Enrichr.GeneSetToken.str "KEGG_2016"]
      (Enrichr.BgValue.intV 20000) false).outcome = Enrichr.Outcome.exited 1 ∧
    (Enrichr.run envEmpty "human" ["TP53"] [Enrichr.GeneSetToken.str "KEGG_2016"]
      (Enrichr.BgValue.intV 20000) false).stderrOut =
      "Not validated Enrichr library name provided\n" ∧
    (Enrichr.run envEmpty "human" ["TP53"] [Enrichr.GeneSetToken.str "KEGG_2016"]
      (Enrichr.BgValue.intV 20000) false).stdoutOut =
      "Hint: use get_library_name() to view full list of supported names" :=
  emptySourcesExitNonzero envEmpty "human" ["TP53"]
    [Enrichr.GeneSetToken.str "KEGG_2016"] (Enrichr.BgValue.intV 20000) false ""
    (by decide) (by rfl)

/-- C9 counterexample: with outdir None, a run that ends on the
empty-sources failure path never reaches the cleanup on the last line of
run, so the temporary directory is not released there, against the claim
that every failure path deletes it. -/
theorem tmpdirCleanup_cex :
    (Enrichr.run envEmpty "human" ["TP53"] [Enrichr.GeneSetToken.str "KEGG_X"]
      (Enrichr.BgValue.intV 1) true).outcome = Enrichr.Outcome.exited 1 ∧
    (Enrichr.run envEmpty "human" ["TP53"] [Enrichr.GeneSetToken.str "KEGG_X"]
      (Enrichr.BgValue.intV 1) true).tmpCleaned = false :=
  ⟨rfl, rfl⟩

/-- C9 amended: the temporary-directory cleanup in run executes exactly
when the source traversal completes and outdir is None; every failure
exit (organism error, empty sources, per-source exception) skips it. -/
theorem tmpdirCleanupSuccessOnly (env : Enrichr.RunEnv) (org : String)
    (genes : List String) (tokens : List Enrichr.GeneSetToken)
    (bg : Enrichr.BgValue) (od : Bool) :
    (Enrichr.run env org genes tokens bg od).tmpCleaned = true ↔
      ((Enrichr.run env org genes tokens bg od).outcome = Enrichr.Outcome.done ∧
        od = true) := by
  rcases horg : Enrichr.get_organism org with _ | p
  · simp [Enrichr.run, horg]
  · by_cases hg : Enrichr.parse_genesets env.catalog env.fsys tokens = []
    · simp [Enrichr.run, horg, hg]
    · rcases hr : Enrichr.runLoop env (Enrichr.parse_genelists genes).gls bg
        (Enrichr.parse_genesets env.catalog env.fsys tokens) [] 1 with ⟨oc, acc, n⟩
      cases oc <;> simp [Enrichr.run, horg, hg, hr]

/-- C2: the bounded-retry fetch returns the first success, returns the
result of attempt 5 after four failures, raises after five failures
having made exactly 5 attempts, never consults any attempt beyond the
5th, and on success the source loop appends the fetched table and
continues with the next source. -/
theorem retryBudgetFiveAttempts :
    (∀ (attempt : Nat → Option Enrichr.ResTable) (t : Enrichr.ResTable),
        (∀ k, 1 ≤ k → k ≤ 4 → attempt k = none) → attempt 5 = some t →
        Enrichr.retryFetch attempt = (some t, 5)) ∧
    (∀ attempt : Nat → Option Enrichr.ResTable,
        (∀ k, 1 ≤ k → k ≤ 5 → attempt k = none) →
        Enrichr.retryFetch attempt = (none, 5)) ∧
    (∀ a b : Nat → Option Enrichr.ResTable,
        (∀ k, k ≤ 5 → a k = b k) →
        Enrichr.retryFetch a = Enrichr.retryFetch b) ∧
    (∀ (env : Enrichr.RunEnv) (gls : Enrichr.Gls) (bg : Enrichr.BgValue)
        (g : String) (rest : List Enrichr.GeneSetSource)
        (acc : List (String × Enrichr.ResTable)) (n : Nat) (t : Enrichr.ResTable),
        env.submitOk g = true →
        (∀ k, 1 ≤ k → k ≤ 4 → env.fetchAttempt g k = none) →
        env.fetchAttempt g 5 = some t →
        Enrichr.runLoop env gls bg (Enrichr.GeneSetSource.remoteSrc g :: rest) acc n =
          Enrichr.runLoop env gls bg rest (acc ++ [(g, t)]) (n + 1 + 5)) := by
  have main : ∀ (attempt : Nat → Option Enrichr.ResTable) (t : Enrichr.ResTable),
      (∀ k, 1 ≤ k → k ≤ 4 → attempt k = none) → attempt 5 = some t →
      Enrichr.retryFetch attempt = (some t, 5) := by
    intro a t h4 h5
    simp [Enrichr.retryFetch, h4 1 (by omega) (by omega), h4 2 (by omega) (by omega),
          h4 3 (by omega) (by omega), h4 4 (by omega) (by omega), h5]
  refine ⟨main, ?_, ?_, ?_⟩
  · intro a h
    simp [Enrichr.retryFetch, h 1 (by omega) (by omega), h 2 (by omega) (by omega),
          h 3 (by omega) (by omega), h 4 (by omega) (by omega),
          h 5 (by omega) (by omega)]
  · intro a b h
    simp only [Enrichr.retryFetch, h 1 (by omega), h 2 (by omega), h 3 (by omega),
               h 4 (by omega), h 5 (by omega)]
  · intro env gls bg g rest acc n t hs h4 h5
    have hr : Enrichr.retryFetch (env.fetchAttempt g) = (some t, 5) :=
      main (env.fetchAttempt g) t h4 h5
    simp [Enrichr.runLoop, hs, hr]

/-- C2 witness: an oracle failing on attempts 1 to 4 and succeeding on 5
returns that result after 5 attempts, and an always-failing oracle gives
up after exactly 5 attempts. -/
theorem retryBudgetFiveAttempts_w :
    Enrichr.retryFetch (fun k => if k = 5 then some [rowEx] else none) =
      (some [rowEx], 5) ∧
    Enrichr.retryFetch (fun _ => none) = (none, 5) :=
  ⟨retryBudgetFiveAttempts.1 _ [rowEx]
      (fun k h1 h2 => by
        show (if k = 5 then some [rowEx] else none) = none
        rw [if_neg (by omega)])
      (by simp),
   retryBudgetFiveAttempts.2.1 _ (fun k h1 h2 => rfl)⟩

/-- C3 counterexample: a background value that is neither a path, nor
numeric, nor a reference name, nor a gene collection (a non-scalar
non-iterable such as None) does not raise: the dispatch only logs and the
enrichment proceeds with the background unset, even producing rows when
the statistical routine accepts the unset background. -/
theorem unsupportedBackground_cex :
    Enrichr.resolveBackground (fun _ => ∅) Enrichr.BgValue.nonIterV =
      Enrichr.BgOutcome.loggedContinue ∧
    Enrichr.BgOutcome.loggedContinue ≠ Enrichr.BgOutcome.fatal ∧
    Enrichr.enrich (fun _ => ∅)
        (fun _ _ p => if p = Enrichr.BgParam.unset then some hgEx else none) id
        Enrichr.BgValue.nonIterV (Enrichr.Gls.symbolic ["g"]) gmtEx =
      Enrichr.EnrichResult.table (Enrichr.buildRows id hgEx) := by
  refine ⟨rfl, by decide, rfl⟩

/-- C3 amended: the background dispatch raises for scalar values that are
neither ints, nor strings, nor digit bytes; ints, digit strings and digit
bytes become counts, other strings go through the reference lookup,
non-digit bytes and the remaining scalars raise, iterables become gene
sets, and a non-scalar non-iterable value is only logged, the run
continuing with the background unset. -/
theorem backgroundResolutionBranches (getBg : String → Finset String) :
    (Enrichr.resolveBackground getBg Enrichr.BgValue.scalarOther =
      Enrichr.BgOutcome.fatal) ∧
    (∀ n, Enrichr.resolveBackground getBg (Enrichr.BgValue.intV n) =
      Enrichr.BgOutcome.okCount n) ∧
    (∀ s, Enrichr.pyIsdigit s = true →
      Enrichr.resolveBackground getBg (Enrichr.BgValue.strV s) =
        Enrichr.BgOutcome.okCount (Int.ofNat (Enrichr.digitsVal 0 s.toList))) ∧
    (∀ s, Enrichr.pyIsdigit s = false →
      Enrichr.resolveBackground getBg (Enrichr.BgValue.strV s) =
        Enrichr.BgOutcome.okGenes (getBg s)) ∧
    (∀ s, Enrichr.pyIsdigit s = true →
      Enrichr.resolveBackground getBg (Enrichr.BgValue.bytesV s) =
        Enrichr.BgOutcome.okCount (Int.ofNat (Enrichr.digitsVal 0 s.toList))) ∧
    (∀ s, Enrichr.pyIsdigit s = false →
      Enrichr.resolveBackground getBg (Enrichr.BgValue.bytesV s) =
        Enrichr.BgOutcome.fatal) ∧
    (∀ gs, Enrichr.resolveBackground getBg (Enrichr.BgValue.iterV gs) =
      Enrichr.BgOutcome.okGenes gs.toFinset) ∧
    (Enrichr.resolveBackground getBg Enrichr.BgValue.nonIterV =
      Enrichr.BgOutcome.loggedContinue) := by
  refine ⟨rfl, fun n => rfl, ?_, ?_, ?_, ?_, fun gs => rfl, rfl⟩ <;>
    intro s hs <;> simp [Enrichr.resolveBackground, hs]

/-- C3 amended witness: the digit string and the digit bytes b-20000 both
become the count 20000, the non-digit bytes raise, and a dataset name
goes through the reference lookup. -/
theorem backgroundResolutionBranches_w :
    Enrichr.resolveBackground (fun _ => ∅) (Enrichr.BgValue.strV "20000") =
      Enrichr.BgOutcome.okCount 20000 ∧
    Enrichr.resolveBackground (fun _ => ∅) (Enrichr.BgValue.bytesV "20000") =
      Enrichr.BgOutcome.okCount 20000 ∧
    Enrichr.resolveBackground (fun _ => ∅) (Enrichr.BgValue.bytesV "bad") =
      Enrichr.BgOutcome.fatal ∧
    Enrichr.resolveBackground (fun _ => {"g"})
        (Enrichr.BgValue.strV "hsapiens_gene_ensembl") =
      Enrichr.BgOutcome.okGenes {"g"} := by
  refine ⟨?_, ?_, ?_, ?_⟩
  · exact ((backgroundResolutionBranches (fun _ => ∅)).2.2.1 "20000"
      (by decide)).trans (by decide)
  · exact ((backgroundResolutionBranches (fun _ => ∅)).2.2.2.2.1 "20000"
      (by decide)).trans (by decide)
  · exact (backgroundResolutionBranches (fun _ => ∅)).2.2.2.2.2.1 "bad"
      (by decide)
  · exact (backgroundResolutionBranches (fun _ => {"g"})).2.2.2.1
      "hsapiens_gene_ensembl" (by decide)

/-- C4: when the statistical routine returns an empty term list for a
local source, enrich returns the None marker, and the source loop treats
it as a non-error, appending nothing and continuing with the remaining
sources. -/
theorem noHitsNonError (env : Enrichr.RunEnv) (gls : Enrichr.Gls)
    (bg : Enrichr.BgValue) (m : Enrichr.Gmt) (rest : List Enrichr.GeneSetSource)
    (acc : List (String × Enrichr.ResTable)) (n : Nat) (p : Enrichr.BgParam)
    (hp : Enrichr.bgParamOf (Enrichr.resolveBackground env.getBg bg) = some p)
    (hempty : env.calcP gls m p = none) :
    Enrichr.enrich env.getBg env.calcP env.correct bg gls m =
      Enrichr.EnrichResult.noRows ∧
    Enrichr.runLoop env gls bg (Enrichr.GeneSetSource.localSrc m :: rest) acc n =
      Enrichr.runLoop env gls bg rest acc n := by
  have he : Enrichr.enrich env.getBg env.calcP env.correct bg gls m =
      Enrichr.EnrichResult.noRows := by
    simp [Enrichr.enrich, hp, hempty]
  exact ⟨he, by simp [Enrichr.runLoop, he]⟩

/-- C4 witness: the empty-payload routine yields the None marker and the
loop continues past the local source. -/
theorem noHitsNonError_w :
    Enrichr.enrich envEmpty.getBg envEmpty.calcP envEmpty.correct
        (Enrichr.BgValue.intV 20000) (Enrichr.Gls.symbolic ["g"]) gmtEx =
      Enrichr.EnrichResult.noRows ∧
    Enrichr.runLoop envEmpty (Enrichr.Gls.symbolic ["g"]) (Enrichr.BgValue.intV 20000)
        [Enrichr.GeneSetSource.localSrc gmtEx] [] 1 =
      Enrichr.runLoop envEmpty (Enrichr.Gls.symbolic ["g"])
        (Enrichr.BgValue.intV 20000) [] [] 1 :=
  noHitsNonError envEmpty (Enrichr.Gls.symbolic ["g"]) (Enrichr.BgValue.intV 20000)
    gmtEx [] [] 1 (Enrichr.BgParam.cnt 20000) rfl rfl

/-- C1 counterexample: with the failing remote library A first and a
local source second, run ends with the escaped exception and an empty
cumulative table, although the same local source alone contributes a
row - so a fatal failure in one source does not leave the remaining
sources processed. -/
theorem fatalSourceAborts_cex :
    (Enrichr.run envC1 "human" ["g"]
        [Enrichr.GeneSetToken.str "A", Enrichr.GeneSetToken.dict gmtEx]
        (Enrichr.BgValue.intV 100) false).outcome = Enrichr.Outcome.raisedSrc ∧
    (Enrichr.run envC1 "human" ["g"]
        [Enrichr.GeneSetToken.str "A", Enrichr.GeneSetToken.dict gmtEx]
        (Enrichr.BgValue.intV 100) false).results = [] ∧
    (Enrichr.run envC1 "human" ["g"] [Enrichr.GeneSetToken.dict gmtEx]
        (Enrichr.BgValue.intV 100) false).results =
      [("CUSTOM", Enrichr.buildRows id hgEx)] :=
  ⟨rfl, rfl, rfl⟩

/-- C1 amended: the source loop has no per-source error boundary; a
failed submit, an exhausted fetch, or a raising local enrichment ends the
whole traversal at once with the accumulated rows unchanged and the
remaining sources unprocessed, while only the local no-hits condition is
non-fatal and lets the loop continue. -/
theorem fatalSourceAbortsWholeRun (env : Enrichr.RunEnv) (gls : Enrichr.Gls)
    (bg : Enrichr.BgValue) (g : String) (m : Enrichr.Gmt)
    (rest : List Enrichr.GeneSetSource) (acc : List (String × Enrichr.ResTable))
    (n : Nat) :
    (env.submitOk g = false →
      Enrichr.runLoop env gls bg (Enrichr.GeneSetSource.remoteSrc g :: rest) acc n =
        (Enrichr.Outcome.raisedSrc, acc, n + 1)) ∧
    (env.submitOk g = true →
      (Enrichr.retryFetch (env.fetchAttempt g)).1 = none →
      Enrichr.runLoop env gls bg (Enrichr.GeneSetSource.remoteSrc g :: rest) acc n =
        (Enrichr.Outcome.raisedSrc, acc,
          n + 1 + (Enrichr.retryFetch (env.fetchAttempt g)).2)) ∧
    (Enrichr.enrich env.getBg env.calcP env.correct bg gls m =
        Enrichr.EnrichResult.fatal →
      Enrichr.runLoop env gls bg (Enrichr.GeneSetSource.localSrc m :: rest) acc n =
        (Enrichr.Outcome.raisedSrc, acc, n)) ∧
    (Enrichr.enrich env.getBg env.calcP env.correct bg gls m =
        Enrichr.EnrichResult.noRows →
      Enrichr.runLoop env gls bg (Enrichr.GeneSetSource.localSrc m :: rest) acc n =
        Enrichr.runLoop env gls bg rest acc n) := by
  refine ⟨?_, ?_, ?_, ?_⟩
  · intro hs
    simp [Enrichr.runLoop, hs]
  · intro hs hf
    rcases hr : Enrichr.retryFetch (env.fetchAttempt g) with ⟨r, c⟩
    rw [hr] at hf
    simp only at hf
    subst hf
    simp [Enrichr.runLoop, hs, hr]
  · intro he
    simp [Enrichr.runLoop, he]
  · intro he
    simp [Enrichr.runLoop, he]

/-- C1 amended witness: the failing remote head ends the loop at once
with the accumulator untouched. -/
theorem fatalSourceAbortsWholeRun_w :
    Enrichr.runLoop envEmpty (Enrichr.Gls.symbolic ["g"]) (Enrichr.BgValue.intV 1)
        [Enrichr.GeneSetSource.remoteSrc "A", Enrichr.GeneSetSource.localSrc gmtEx]
        [] 1 =
      (Enrichr.Outcome.raisedSrc, [], 2) :=
  (fatalSourceAbortsWholeRun envEmpty (Enrichr.Gls.symbolic ["g"])
      (Enrichr.BgValue.intV 1) "A" gmtEx [Enrichr.GeneSetSource.localSrc gmtEx]
      [] 1).1 rfl
